import Mathlib

/-!
Shallow embedding of the `variable-mode-collector` repository.

The repository contains three variants of the extraction pipeline:
  * the synchronous variant in `src/features/wf-variable-mode-collector.ts`,
    which reads the already-parsed `cssRules` of the first stylesheet;
  * a worker-based variant embedded in `src/types/wf-var-modes.d.ts`
    (lines 40-322), which fetches the first stylesheet's text inside a web
    worker and parses it with regexes;
  * an async fetch variant embedded in the same file (lines 324-530), which
    fetches the text on the main thread and parses it with the same regexes.

JavaScript `Record`/`Map` objects are modelled as insertion-ordered
association lists with in-place overwrite (`mapSet`), DOM elements as a
structure carrying an identity, a class list and the `data-variable-mode`
dataset value, CSSOM style rules as a selector text plus the declared
property list, and the two regexes of the worker/fetch variants as
character-list scanners that follow the exact backtracking behaviour of
`/\.([^\s{,:]+)\s*\x7b([^}]*)\x7d/g` and `/(--[^:]+):\s*([^;]+);/g`.
-/

namespace VarModeCollector

/-- JS object/Map update `obj[k] = v` / `m.set(k, v)`: overwrites in place
when the key is present, otherwise appends, preserving insertion order. -/
def mapSet {κ α : Type} [DecidableEq κ] (m : List (κ × α)) (k : κ) (v : α) :
    List (κ × α) :=
  if m.any (fun p => decide (p.1 = k)) then
    m.map (fun p => if p.1 = k then (k, v) else p)
  else m ++ [(k, v)]

/-- JS object/Map read `obj[k]` / `m.get(k)`, `none` modelling `undefined`. -/
def mapGet {κ α : Type} [DecidableEq κ] (m : List (κ × α)) (k : κ) : Option α :=
  (m.find? (fun p => decide (p.1 = k))).map (·.2)

/-- One declared property of a CSSOM style object: the name as enumerated by
`style[j]` and the value returned by `style.getPropertyValue(name)` (for
custom properties CSSOM preserves the leading whitespace of the raw value,
which is why the source calls `.trim()`). -/
structure CssDecl where
  name : String
  value : String
deriving DecidableEq, Repr

/-- A parsed CSSOM rule: either a `CSSStyleRule` with its `selectorText` and
declared properties, or any other kind of rule (`@media`, `@import`, ...),
which the synchronous scan skips via the `instanceof CSSStyleRule` test. -/
inductive CssRule where
  | styleRule (selectorText : String) (decls : List CssDecl)
  | otherRule
deriving DecidableEq, Repr

/-- The test `rule instanceof CSSStyleRule && rule.selectorText === '.' + className`
from the synchronous variant. -/
def CssRule.matchesClass : CssRule → String → Bool
  | .styleRule sel _, c => decide (sel = "." ++ c)
  | .otherRule, _ => false

/-- The declared properties of a rule (empty for non-style rules). -/
def CssRule.declsOf : CssRule → List CssDecl
  | .styleRule _ d => d
  | .otherRule => []

/-- A stylesheet as seen through `document.styleSheets`: its `href` (null for
inline sheets) and its `cssRules` (`none` models the cross-origin case where
accessing `cssRules` throws a security error, caught by the source). -/
structure StyleSheet where
  href : Option String
  cssRules : Option (List CssRule)
deriving DecidableEq, Repr

/-- An HTML element: `id` models object identity (the key of the JS `Map`
keyed by elements), `classList` its class list in order, and `variableMode`
the `dataset.variableMode` value (`none` when the attribute is absent). -/
structure Element where
  id : Nat
  classList : List String
  variableMode : Option String
deriving DecidableEq, Repr

/-- A `Record<string, string>` of custom properties, insertion ordered. -/
abbrev PropertyMap := List (String × String)

/-- The canonical output artifact: mode name to property map. -/
abbrev VariableModes := List (String × PropertyMap)

/-- The `Map<HTMLElement, Record<string, string>>` result, keyed by element
identity. -/
abbrev ElementPropsMap := List (Nat × PropertyMap)

/-- The whitespace class `\s` of the JS regexes and of `String.prototype.trim`,
restricted to the ASCII whitespace characters that can occur in the inputs
considered here. -/
def isJsSpace (c : Char) : Bool :=
  c = ' ' || c = '\t' || c = '\n' || c = '\r'

/-- JS `String.prototype.trim`: strip whitespace from both ends (modelled
structurally over the character list so it computes by reduction). -/
def jsTrim (s : String) : String :=
  String.mk (((s.toList.dropWhile isJsSpace).reverse.dropWhile isJsSpace).reverse)

/-- JS `propertyName.startsWith('--')`. -/
def startsWithDashDash (s : String) : Bool :=
  match s.toList with
  | '-' :: '-' :: _ => true
  | _ => false

/-- The inner loop of the synchronous variant (features file, lines 59-69):
walk the declared properties of a matched rule, keep only names starting
with `--` whose trimmed value is non-empty, trimming the value. -/
def extractCustomProps (decls : List CssDecl) : PropertyMap :=
  decls.foldl
    (fun acc d =>
      if startsWithDashDash d.name then
        let v := jsTrim d.value
        if v = "" then acc else mapSet acc d.name v
      else acc)
    []

/-- The forward scan of the synchronous variant (features file, lines 53-75):
return the declarations of the first style rule whose selector is exactly
`.className`; the `break` after the first match means later rules for the
same class are never consulted. -/
def findClassRule (c : String) : List CssRule → Option (List CssDecl)
  | [] => none
  | r :: rs => if r.matchesClass c then some r.declsOf else findClassRule c rs

/-- The two maps the synchronous variant builds: the element-keyed result and
the internal class-to-properties memo `classRulesMap`. -/
structure SyncExtractState where
  result : ElementPropsMap
  classRulesMap : List (String × PropertyMap)
deriving DecidableEq, Repr

/-- Per-element step of the synchronous variant (features file, lines 33-76):
an element with no classes gets an empty map; otherwise its first class is
looked up in the memo, and on a memo miss the rule list is scanned; when a
rule matches, the extracted properties are recorded both for the element and
in the memo (note: the memo entry is written even when the matched rule has
zero custom properties). -/
def syncStep (cssRules : List CssRule) (st : SyncExtractState) (e : Element) :
    SyncExtractState :=
  match e.classList with
  | [] => { st with result := mapSet st.result e.id [] }
  | className :: _ =>
    match mapGet st.classRulesMap className with
    | some cached => { st with result := mapSet st.result e.id cached }
    | none =>
      match findClassRule className cssRules with
      | none => { st with result := mapSet st.result e.id [] }
      | some decls =>
        let props := extractCustomProps decls
        { result := mapSet st.result e.id props
          classRulesMap := mapSet st.classRulesMap className props }

/-- `extractCssCustomProperties` of the synchronous variant (features file,
lines 12-83): no stylesheet, or a first stylesheet whose `cssRules` access
throws (cross-origin), yields an empty result map; otherwise the elements
are processed against the first stylesheet's rules. -/
def extractCssCustomPropertiesSync (sheets : List StyleSheet)
    (elements : List Element) : SyncExtractState :=
  match sheets with
  | [] => ⟨[], []⟩
  | sheet :: _ =>
    match sheet.cssRules with
    | none => ⟨[], []⟩
    | some rules => elements.foldl (syncStep rules) ⟨[], []⟩


/-- The opening brace character (written via its code point). -/
def lbraceChar : Char := '\x7b'

/-- The closing brace character (written via its code point). -/
def rbraceChar : Char := '\x7d'

/-- The character class `[^\s{,:]` of the class-selector regex. -/
def isClassNameChar (c : Char) : Bool :=
  !(isJsSpace c) && c != lbraceChar && c != ',' && c != ':'

/-- Match of the class-selector regex at the start of the input: a literal
dot, a non-empty greedy run of `[^\s{,:]`, optional whitespace, an opening
brace, the block up to the first closing brace, and that closing brace.
Greediness needs no backtracking here: shortening the name run would place a
name character where whitespace or a brace is required. On success, returns
the captured class name, the captured block, and the remaining input. -/
def matchClassRuleAt : List Char → Option (List Char × List Char × List Char)
  | [] => none
  | c :: cs =>
    if c = '.' then
      let name := cs.takeWhile isClassNameChar
      if name = [] then none
      else
        match (cs.dropWhile isClassNameChar).dropWhile isJsSpace with
        | [] => none
        | b :: body =>
          if b = lbraceChar then
            let block := body.takeWhile (fun d => d != rbraceChar)
            match body.dropWhile (fun d => d != rbraceChar) with
            | [] => none
            | _ :: rest => some (name, block, rest)
          else none
    else none

/-- Match of the custom-property regex at the start of the input: a literal
`--`, a non-empty greedy run of `[^:]`, a colon, greedy `\s*`, a non-empty
run of `[^;]`, and a semicolon. The one place the regex engine backtracks is
when `\s*` has swallowed every character before the semicolon: it then gives
one whitespace character back so that `[^;]+` is non-empty. Captures are
trimmed exactly as the source trims `varMatch[1]` and `varMatch[2]`. -/
def matchVarDeclAt (l : List Char) : Option (String × String × List Char) :=
  match l with
  | '-' :: '-' :: cs =>
    let n := cs.takeWhile (fun c => c != ':')
    if n = [] then none
    else
      match cs.dropWhile (fun c => c != ':') with
      | [] => none
      | _ :: t =>
        let ws := t.takeWhile isJsSpace
        let afterWs := t.dropWhile isJsSpace
        let v1 := afterWs.takeWhile (fun c => c != ';')
        if v1 = [] then
          match ws.reverse, afterWs with
          | w :: _, ';' :: rest =>
            some (jsTrim (String.mk ('-' :: '-' :: n)), jsTrim (String.mk [w]), rest)
          | _, _ => none
        else
          match afterWs.dropWhile (fun c => c != ';') with
          | [] => none
          | _ :: rest =>
            some (jsTrim (String.mk ('-' :: '-' :: n)), jsTrim (String.mk v1), rest)
  | _ => none

/-- The `variableRegex.exec` loop over a style block: scan left to right,
restarting one character later on failure and after the match end on
success; `customProps[propName] = propValue` is a JS-object write. The fuel
argument bounds the recursion; every step consumes at least one character,
so fuel equal to the input length is always sufficient. -/
def varRegexScan : Nat → List Char → PropertyMap → PropertyMap
  | 0, _, acc => acc
  | _ + 1, [], acc => acc
  | fuel + 1, c :: cs, acc =>
    match matchVarDeclAt (c :: cs) with
    | some (n, v, rest) => varRegexScan fuel rest (mapSet acc n v)
    | none => varRegexScan fuel cs acc

/-- All custom properties the worker/fetch regexes extract from one style
block. -/
def parseBlockProps (block : List Char) : PropertyMap :=
  varRegexScan block.length block []

/-- The `classRegex.exec` loop of the worker/fetch variants: for each match,
an empty style block is skipped (`!styleBlock` is true for the empty
string), the block's custom properties are extracted, and the class is
recorded only when at least one custom property was found; a later match for
the same class overwrites the earlier entry. -/
def classRegexScan :
    Nat → List Char → List (String × PropertyMap) → List (String × PropertyMap)
  | 0, _, acc => acc
  | _ + 1, [], acc => acc
  | fuel + 1, c :: cs, acc =>
    match matchClassRuleAt (c :: cs) with
    | none => classRegexScan fuel cs acc
    | some (n, block, rest) =>
      if block = [] then classRegexScan fuel rest acc
      else
        let props := parseBlockProps block
        if props = [] then classRegexScan fuel rest acc
        else classRegexScan fuel rest (mapSet acc (String.mk n) props)

/-- The class-to-properties index the worker/fetch variants build from the
fetched stylesheet text (d.ts lines 96-121 and 362-387; the two copies are
textually identical). -/
def buildClassRulesMap (cssText : String) : List (String × PropertyMap) :=
  classRegexScan cssText.toList.length cssText.toList []

/-- Per-element step of the fetch variant's element loop (d.ts lines
390-407): default to an empty map, then overwrite with a copy of the index
entry for the element's first class when one exists. -/
def asyncElementStep (index : List (String × PropertyMap))
    (acc : ElementPropsMap) (e : Element) : ElementPropsMap :=
  match e.classList with
  | [] => mapSet acc e.id []
  | c :: _ =>
    match mapGet index c with
    | some props => mapSet acc e.id props
    | none => mapSet acc e.id []

/-- `extractCssCustomProperties` of the async fetch variant (d.ts lines
335-413): an absent first stylesheet or one without an `href` yields an
empty result map; otherwise the fetched text (`cssText`, the body the fetch
resolved with) is regex-parsed into a class index and every element is
mapped through it. -/
def extractCssCustomPropertiesAsync (sheets : List StyleSheet)
    (cssText : String) (elements : List Element) : ElementPropsMap :=
  match sheets with
  | [] => []
  | sheet :: _ =>
    match sheet.href with
    | none => []
    | some _ =>
      let index := buildClassRulesMap cssText
      elements.foldl (asyncElementStep index) []

/-- The grouping pass of the worker variant (d.ts lines 155-170): elements
with classes are grouped by their first class, keyed in first-seen order. -/
def elementClassGroups (els : List Element) : List (String × List Nat) :=
  els.foldl
    (fun g e =>
      match e.classList with
      | [] => g
      | c :: _ =>
        match mapGet g c with
        | some ids => mapSet g c (ids ++ [e.id])
        | none => mapSet g c [e.id])
    []

/-- `extractCssCustomProperties` of the worker variant (d.ts lines 142-219):
class-less elements get an empty map during grouping; the worker parses the
fetched text with the same regexes; each group of elements then receives a
copy of the index entry for its class, or an empty map. -/
def extractCssCustomPropertiesWorker (sheets : List StyleSheet)
    (cssText : String) (els : List Element) : ElementPropsMap :=
  match sheets with
  | [] => []
  | sheet :: _ =>
    match sheet.href with
    | none => []
    | some _ =>
      let noClassRes :=
        els.foldl
          (fun acc e =>
            if e.classList.isEmpty then mapSet acc e.id ([] : PropertyMap)
            else acc)
          ([] : ElementPropsMap)
      let index := buildClassRulesMap cssText
      (elementClassGroups els).foldl
        (fun acc g =>
          let props := (mapGet index g.1).getD []
          g.2.foldl (fun a i => mapSet a i props) acc)
        noClassRes

/-- The persisted cache blob `{ publishDate, data }` (already deserialized;
`JSON.parse ∘ JSON.stringify` is the identity on this shape, so the
localStorage slot is modelled at the value level). -/
structure CacheEntry where
  publishDate : String
  data : VariableModes
deriving DecidableEq, Repr

/-- `currentPublishDate?.toISOString() || ''`: the content-version string.
The date is modelled by its ISO string; `toISOString` of a real `Date` is
never the empty string, so an empty version string arises exactly when the
publish date is unavailable (`none`). -/
def publishDateString (date : Option String) : String := date.getD ""

/-- The cache-read block (features file lines 128-142, d.ts lines 231-245
and 458-472): the stored entry is adopted only when a blob exists, the
current publish date is available, and the stored version equals the current
version string exactly. -/
def cacheLookup (date : Option String) (slot : Option CacheEntry) :
    Option VariableModes :=
  match slot, date with
  | some entry, some _ =>
    if entry.publishDate = publishDateString date then some entry.data else none
  | _, _ => none

/-- The cache-write block (features file lines 164-176): the fresh result is
persisted under the current version only when a publish date is available;
otherwise the slot is left untouched. -/
def cacheStore (date : Option String) (vm : VariableModes)
    (slot : Option CacheEntry) : Option CacheEntry :=
  match date with
  | some _ => some ⟨publishDateString date, vm⟩
  | none => slot

/-- Per-element step of the mode-map loop (features file lines 155-162): an
element whose `dataset.variableMode` is absent or the empty string is
skipped (`!modeName`); an element with no entry in the result map is skipped
(`!variables`, true only for `undefined`, not for an empty object);
otherwise `variableModes[modeName] = variables`. -/
def modeStep (result : ElementPropsMap) (acc : VariableModes) (e : Element) :
    VariableModes :=
  match e.variableMode with
  | none => acc
  | some m =>
    if m = "" then acc
    else
      match mapGet result e.id with
      | none => acc
      | some vars => mapSet acc m vars

/-- The mode-name loop building the published `VariableModes`. -/
def buildVariableModes (modeElements : List Element)
    (result : ElementPropsMap) : VariableModes :=
  modeElements.foldl (modeStep result) []

/-- `extractWebflowVariableModes` of the synchronous variant (features file
lines 122-179): on a cache hit return the cached data and leave the slot
untouched; on a miss run the extraction over the elements matched by
`[data-variable-mode]`, build the mode map, and store it when a publish date
is available. Returns the mode map together with the updated cache slot. -/
def extractWebflowVariableModesSync (date : Option String)
    (slot : Option CacheEntry) (sheets : List StyleSheet)
    (modeElements : List Element) : VariableModes × Option CacheEntry :=
  match cacheLookup date slot with
  | some vm => (vm, slot)
  | none =>
    let st := extractCssCustomPropertiesSync sheets modeElements
    let vm := buildVariableModes modeElements st.result
    (vm, cacheStore date vm slot)

/-- `getMultipleHtmlElements` (dist chunk, src/utils/get-html-element.ts):
returns `null` (with a diagnostic log) when the selector matches zero
elements, and the element list otherwise. -/
def getMultipleHtmlElements (found : List Element) : Option (List Element) :=
  if found.length = 0 then none else some found

/-- `extractWebflowVariableModes` of the worker variant (d.ts lines
225-283): same cache logic, but the element scan goes through
`getMultipleHtmlElements`, so a page with zero mode-tagged elements makes
the whole extraction return `null` (and nothing is stored). -/
def extractWebflowVariableModesWorker (date : Option String)
    (slot : Option CacheEntry) (sheets : List StyleSheet) (cssText : String)
    (modeElements : List Element) :
    Option VariableModes × Option CacheEntry :=
  match cacheLookup date slot with
  | some vm => (some vm, slot)
  | none =>
    match getMultipleHtmlElements modeElements with
    | none => (none, slot)
    | some els =>
      let res := extractCssCustomPropertiesWorker sheets cssText els
      let vm := buildVariableModes els res
      (some vm, cacheStore date vm slot)

/-- The readiness object `window.wfVarModes`: `data` and `isReady`. -/
structure Gate where
  data : Option VariableModes
  isReady : Bool
deriving DecidableEq, Repr

/-- Observable state of the page's event machinery around the readiness
gate: the gate itself, the callbacks registered on the `wfVarModesReady`
event, the callbacks sitting in the `setTimeout` queue, the log of callback
invocations (callback id paired with the data it was handed), and whether
the one publish of this page load has happened. Callbacks are identified by
ids; the closures `() => callback(this.data!)` read `this.data` at
invocation time, which the step functions reproduce. -/
structure Sys where
  gate : Gate
  listeners : List Nat
  timers : List Nat
  fired : List (Nat × VariableModes)
  published : Bool
deriving DecidableEq, Repr

/-- The state right after the module initialized `window.wfVarModes`. -/
def s0 : Sys := ⟨⟨none, false⟩, [], [], [], false⟩

/-- `wfVarModes.onReady` (features file lines 111-119): if
`this.isReady && this.data`, schedule the callback on a fresh timer turn;
otherwise register it on the `wfVarModesReady` event. -/
def onReady (s : Sys) (cb : Nat) : Sys :=
  if s.gate.isReady && s.gate.data.isSome then
    { s with timers := s.timers ++ [cb] }
  else
    { s with listeners := s.listeners ++ [cb] }

/-- The publish step of `initWfVarModes` (features file lines 186-191): set
`data`, set `isReady`, then dispatch `wfVarModesReady`, which synchronously
invokes every registered listener; each listener closure reads `this.data`,
which at that point is the published value. -/
def publish (s : Sys) (d : VariableModes) : Sys :=
  { s with
    gate := ⟨some d, true⟩
    fired := s.fired ++ s.listeners.map (fun cb => (cb, d))
    published := true }

/-- A later scheduling turn running the pending `setTimeout` callbacks; each
closure reads `this.data` at run time. -/
def runTimers (s : Sys) : Sys :=
  { s with
    fired := s.fired ++ s.timers.map (fun cb => (cb, s.gate.data.getD []))
    timers := [] }

/-- One observable step of a page load: a consumer registering an `onReady`
callback, the single initialization publish (it runs at most once per page
load), or a timer turn. -/
inductive Step : Sys → Sys → Prop
  | register (s : Sys) (cb : Nat) : Step s (onReady s cb)
  | doPublish (s : Sys) (d : VariableModes) (h : s.published = false) :
      Step s (publish s d)
  | fireTimers (s : Sys) : Step s (runTimers s)

/-- States reachable from the initial readiness state. -/
def Reachable (s : Sys) : Prop := Relation.ReflTransGen Step s0 s

/-- `initWfVarModes` of the synchronous variant (features file lines
182-197): extract, then unconditionally publish the result (even an empty
mode map) and dispatch the ready event. -/
def initWfVarModesSync (s : Sys) (date : Option String)
    (slot : Option CacheEntry) (sheets : List StyleSheet)
    (modeElements : List Element) : Sys × Option CacheEntry :=
  let r := extractWebflowVariableModesSync date slot sheets modeElements
  (publish s r.1, r.2)

/-- `initWfVarModes` of the worker variant (d.ts lines 292-317): when the
extraction returns `null` (no mode-tagged elements found), log an error and
return without touching the gate and without dispatching; otherwise publish
and dispatch. -/
def initWfVarModesWorker (s : Sys) (date : Option String)
    (slot : Option CacheEntry) (sheets : List StyleSheet) (cssText : String)
    (modeElements : List Element) : Sys × Option CacheEntry :=
  match extractWebflowVariableModesWorker date slot sheets cssText modeElements with
  | (none, slot2) => (s, slot2)
  | (some vm, slot2) => (publish s vm, slot2)

/-- Invariant of the readiness machinery: the gate flag tracks the data
field, the publish flag tracks the data field, every recorded invocation saw
the published data with the gate ready, and timers are only ever pending
once data is set. -/
def GateInv (s : Sys) : Prop :=
  (s.gate.isReady = true ↔ s.gate.data ≠ none) ∧
  (s.published = true ↔ s.gate.data ≠ none) ∧
  (∀ e ∈ s.fired, s.gate.data = some e.2 ∧ s.gate.isReady = true) ∧
  (s.timers ≠ [] → s.gate.data ≠ none)

/-- The rule list of the divergence input: two rules for the same class,
first declaring `--a: 1`, second declaring `--a: 2` (CSSOM keeps the leading
space of a custom property's raw value). -/
def c2Rules : List CssRule :=
  [CssRule.styleRule ".c1" [⟨"--a", " 1"⟩],
   CssRule.styleRule ".c1" [⟨"--a", " 2"⟩]]

/-- The stylesheet text whose browser parse is exactly `c2Rules`. -/
def c2Text : String := ".c1\x7b--a: 1;\x7d.c1\x7b--a: 2;\x7d"

/-- One mode-tagged element whose first class is `c1`. -/
def c2Els : List Element := [⟨0, ["c1"], some "dark"⟩]

theorem mem_mapSet {κ α : Type} [DecidableEq κ] {m : List (κ × α)} {k : κ}
    {v : α} {e : κ × α} (he : e ∈ mapSet m k v) : e = (k, v) ∨ e ∈ m := by
  unfold mapSet at he
  split at he
  · rcases List.mem_map.1 he with ⟨p, hp, hpe⟩
    by_cases hk : p.1 = k
    · rw [if_pos hk] at hpe
      exact Or.inl hpe.symm
    · rw [if_neg hk] at hpe
      exact Or.inr (hpe ▸ hp)
  · rcases List.mem_append.1 he with h1 | h1
    · exact Or.inr h1
    · exact Or.inl (List.mem_singleton.1 h1)

theorem mapGet_mem {κ α : Type} [DecidableEq κ] {m : List (κ × α)} {k : κ}
    {v : α} (h : mapGet m k = some v) : ∃ p ∈ m, p.2 = v := by
  unfold mapGet at h
  rcases Option.map_eq_some'.1 h with ⟨p, hp, hv⟩
  exact ⟨p, List.mem_of_find?_eq_some hp, hv⟩

theorem classRegexScan_vals_ne_nil (fuel : Nat) :
    ∀ (cs : List Char) (acc : List (String × PropertyMap)),
      (∀ e ∈ acc, e.2 ≠ []) → ∀ e ∈ classRegexScan fuel cs acc, e.2 ≠ [] := by
  induction fuel with
  | zero =>
    intro cs acc hacc
    simpa [classRegexScan] using hacc
  | succ n ih =>
    intro cs acc hacc
    cases cs with
    | nil => simpa [classRegexScan] using hacc
    | cons c cs =>
      rcases hm : matchClassRuleAt (c :: cs) with _ | ⟨nm, block, rest⟩
      · simpa [classRegexScan, hm] using ih cs acc hacc
      · simp only [classRegexScan, hm]
        split
        · exact ih rest acc hacc
        · split
          · exact ih rest acc hacc
          · rename_i hprops
            refine ih rest _ ?_
            intro e he
            rcases mem_mapSet he with rfl | h1
            · simpa using hprops
            · exact hacc e h1

theorem modeStep_empty_result (acc : VariableModes) (e : Element) :
    modeStep [] acc e = acc := by
  unfold modeStep
  cases e.variableMode with
  | none => rfl
  | some m =>
    by_cases hm : m = ""
    · simp [hm]
    · simp [hm, mapGet]

theorem buildVariableModes_empty_result (els : List Element) :
    buildVariableModes els [] = [] := by
  unfold buildVariableModes
  suffices h : ∀ acc, List.foldl (modeStep []) acc els = acc from h []
  intro acc
  induction els generalizing acc with
  | nil => rfl
  | cons e es ih => rw [List.foldl_cons, modeStep_empty_result]; exact ih acc

theorem findClassRule_append_first (pre post : List CssRule) (c : String)
    (decls : List CssDecl) (h : ∀ r ∈ pre, r.matchesClass c = false) :
    findClassRule c (pre ++ CssRule.styleRule ("." ++ c) decls :: post)
      = some decls := by
  induction pre with
  | nil => simp [findClassRule, CssRule.matchesClass, CssRule.declsOf]
  | cons r rs ih =>
    rw [List.cons_append]
    rw [show findClassRule c (r :: (rs ++ CssRule.styleRule ("." ++ c) decls :: post))
        = if r.matchesClass c then some r.declsOf
          else findClassRule c (rs ++ CssRule.styleRule ("." ++ c) decls :: post)
      from rfl]
    rw [h r (List.mem_cons_self r rs), if_neg (by simp)]
    exact ih fun r2 hr2 => h r2 (List.mem_cons_of_mem r hr2)

theorem gateInv_s0 : GateInv s0 := by
  refine ⟨by simp [s0], by simp [s0], ?_, by simp [s0]⟩
  intro e he
  simp [s0] at he

theorem gateInv_step {s t : Sys} (hst : Step s t) (hs : GateInv s) :
    GateInv t := by
  obtain ⟨h1, h2, h3, h4⟩ := hs
  cases hst with
  | register cb =>
    unfold onReady
    by_cases hc : (s.gate.isReady && s.gate.data.isSome) = true
    · rw [if_pos hc]
      refine ⟨h1, h2, h3, fun _ => ?_⟩
      have hc2 : s.gate.data.isSome = true := by
        simp only [Bool.and_eq_true] at hc
        exact hc.2
      exact Option.isSome_iff_ne_none.1 hc2
    · rw [if_neg hc]
      exact ⟨h1, h2, h3, h4⟩
  | doPublish d hp =>
    have hdn : s.gate.data = none := by
      by_contra hne
      rw [h2.2 hne] at hp
      exact Bool.noConfusion hp
    have hfired : s.fired = [] := by
      cases hf : s.fired with
      | nil => rfl
      | cons e es =>
        have := (h3 e (hf ▸ List.mem_cons_self e es)).1
        rw [hdn] at this
        exact absurd this (by simp)
    unfold publish
    refine ⟨by simp, by simp, ?_, fun _ => by simp⟩
    intro e he
    simp only [hfired, List.nil_append, List.mem_map] at he
    rcases he with ⟨cb, _, rfl⟩
    exact ⟨rfl, rfl⟩
  | fireTimers =>
    unfold runTimers
    refine ⟨h1, h2, ?_, fun hne => absurd rfl hne⟩
    intro e he
    rcases List.mem_append.1 he with h5 | h5
    · exact h3 e h5
    · rcases List.mem_map.1 h5 with ⟨cb, hcb, rfl⟩
      have htne : s.timers ≠ [] := by
        intro h0
        rw [h0] at hcb
        exact absurd hcb (List.not_mem_nil cb)
      have hdn : s.gate.data ≠ none := h4 htne
      obtain ⟨d, hd⟩ := Option.ne_none_iff_exists'.1 hdn
      exact ⟨by simp [hd], h1.2 hdn⟩

/-- C1 (counterexample): in the synchronous variant's `initWfVarModes`
(features file lines 182-197), a page with zero `[data-variable-mode]`
elements does NOT leave the gate untouched: extraction yields the empty mode
map, which is published unconditionally, so `isReady` becomes `true` and
`data` becomes the (non-null) empty object — contradicting the claim that
`isReady` stays `false` and `data` stays `null`. -/
theorem C1_sync_init_publishes_empty :
    (initWfVarModesSync s0 none none [] []).1.gate.isReady = true ∧
    (initWfVarModesSync s0 none none [] []).1.gate.data = some [] :=
  ⟨rfl, rfl⟩

/-- C1 (amended): in the worker variant's `initWfVarModes` (d.ts lines
292-317), when no valid cache entry matches and the page has zero
mode-tagged elements, `getMultipleHtmlElements` returns `null`, extraction
returns `null`, and initialization logs an error and returns without ever
publishing: the gate keeps `data = null` and `isReady = false`, no ready
event is dispatched, the cache slot is untouched, and no exception escapes
(the model is a total function). -/
theorem C1_worker_init_no_publish (date : Option String)
    (slot : Option CacheEntry) (sheets : List StyleSheet) (cssText : String)
    (h : cacheLookup date slot = none) :
    initWfVarModesWorker s0 date slot sheets cssText [] = (s0, slot) ∧
    s0.gate.isReady = false ∧ s0.gate.data = none ∧ s0.published = false := by
  refine ⟨?_, rfl, rfl, rfl⟩
  unfold initWfVarModesWorker extractWebflowVariableModesWorker
  rw [h]
  rfl

/-- Witness for C1: the amended theorem applied at the concrete input of a
first page load (no publish date, empty cache, no stylesheets). -/
theorem C1_worker_init_no_publish_witness :
    cacheLookup none none = none ∧
    (initWfVarModesWorker s0 none none [] "" [] = (s0, none) ∧
     s0.gate.isReady = false ∧ s0.gate.data = none ∧ s0.published = false) :=
  ⟨rfl, C1_worker_init_no_publish none none [] "" rfl⟩

/-- C2: the synchronous variant (reading parsed `cssRules`, first match
wins) and the asynchronous fetch variant (regex-parsing the stylesheet text,
last rule with a custom property wins) do NOT produce identical output for
the same CSS input. For the stylesheet text `.c1{--a: 1;}.c1{--a: 2;}` —
whose browser parse is exactly `c2Rules` — the synchronous variant maps the
element to `--a: 1` while the asynchronous variant maps it to `--a: 2`. -/
theorem C2_sync_async_divergence :
    (extractCssCustomPropertiesSync [⟨some "style.css", some c2Rules⟩]
        c2Els).result = [(0, [("--a", "1")])] ∧
    extractCssCustomPropertiesAsync [⟨some "style.css", some c2Rules⟩]
        c2Text c2Els = [(0, [("--a", "2")])] ∧
    (extractCssCustomPropertiesSync [⟨some "style.css", some c2Rules⟩]
        c2Els).result ≠
      extractCssCustomPropertiesAsync [⟨some "style.css", some c2Rules⟩]
        c2Text c2Els :=
  ⟨rfl, rfl, by decide⟩

/-- C3: `onReady` of the features file. Register callback `c1` before the
publish and callback `c2` after it. Immediately after the late registration
nothing has invoked `c2` (it was only scheduled via `setTimeout`, never
synchronously in the registration's own call stack); after the next timer
turn both callbacks have been invoked exactly once, each with the published
data `d`. -/
theorem C3_onReady_once_and_async (d : VariableModes) (c1 c2 : Nat)
    (h : c1 ≠ c2) :
    (onReady (publish (onReady s0 c1) d) c2).fired.filter
        (fun p => p.1 == c2) = [] ∧
    (runTimers (onReady (publish (onReady s0 c1) d) c2)).fired.filter
        (fun p => p.1 == c1) = [(c1, d)] ∧
    (runTimers (onReady (publish (onReady s0 c1) d) c2)).fired.filter
        (fun p => p.1 == c2) = [(c2, d)] := by
  have hb : (c1 == c2) = false := beq_eq_false_iff_ne.2 h
  have hb2 : (c2 == c1) = false := beq_eq_false_iff_ne.2 (Ne.symm h)
  simp [onReady, publish, runTimers, s0, List.filter, hb, hb2]

/-- Witness for C3 at concrete callback ids and concrete published data. -/
theorem C3_onReady_once_and_async_witness :
    (0 : Nat) ≠ 1 ∧
    ((onReady (publish (onReady s0 0) [("dark", [("--bg", "#000")])]) 1).fired.filter
        (fun p => p.1 == 1) = [] ∧
     (runTimers (onReady (publish (onReady s0 0) [("dark", [("--bg", "#000")])]) 1)).fired.filter
        (fun p => p.1 == 0) = [(0, [("dark", [("--bg", "#000")])])] ∧
     (runTimers (onReady (publish (onReady s0 0) [("dark", [("--bg", "#000")])]) 1)).fired.filter
        (fun p => p.1 == 1) = [(1, [("dark", [("--bg", "#000")])])]) :=
  ⟨by decide, C3_onReady_once_and_async [("dark", [("--bg", "#000")])] 0 1 (by decide)⟩

/-- C4: in every reachable state of the readiness machinery, `isReady` is
`true` iff `data` is non-null; and every callback invocation on record was
made after both `data` and `isReady` were set (the listener saw exactly the
published data with the gate ready, i.e. the ready notification fires
strictly after the gate holds a consistent snapshot). -/
theorem C4_readiness_invariant (s : Sys) (h : Reachable s) :
    ((s.gate.isReady = true) ↔ s.gate.data ≠ none) ∧
    ∀ e ∈ s.fired, s.gate.data = some e.2 ∧ s.gate.isReady = true := by
  have hinv : GateInv s := by
    induction h with
    | refl => exact gateInv_s0
    | tail _ hstep ih => exact gateInv_step hstep ih
  exact ⟨hinv.1, hinv.2.2.1⟩

/-- Witness for C4: the invariant at the concrete reachable state obtained
by registering one callback and then publishing. -/
theorem C4_readiness_invariant_witness :
    Reachable (publish (onReady s0 0) [("dark", [("--bg", "#000")])]) ∧
    (((publish (onReady s0 0) [("dark", [("--bg", "#000")])]).gate.isReady = true) ↔
      (publish (onReady s0 0) [("dark", [("--bg", "#000")])]).gate.data ≠ none) := by
  have h1 : Reachable (onReady s0 0) :=
    Relation.ReflTransGen.single (Step.register s0 0)
  have h2 : Reachable (publish (onReady s0 0) [("dark", [("--bg", "#000")])]) :=
    h1.tail (Step.doPublish _ _ rfl)
  exact ⟨h2, (C4_readiness_invariant _ h2).1⟩

/-- C5 (counterexample): in the synchronous variant, a class whose matching
rule declares zero custom properties DOES appear as a key of the internal
`classRulesMap` index: the memo entry is written (with an empty map) as soon
as an element with that class finds its rule, contradicting the claim that
such a class never appears as a key. -/
theorem C5_sync_index_keeps_empty_class :
    extractCustomProps [⟨"color", "red"⟩] = [] ∧
    mapGet (extractCssCustomPropertiesSync
        [⟨some "style.css", some [CssRule.styleRule ".c1" [⟨"color", "red"⟩]]⟩]
        [⟨0, ["c1"], some "dark"⟩]).classRulesMap "c1" = some [] :=
  ⟨rfl, rfl⟩

/-- C5 (amended): in the regex-built index of the worker/fetch variants, a
class is recorded only when at least one custom property was extracted, so
every key of the index carries a non-empty property map. -/
theorem C5_regex_index_no_empty_class (text c : String) (props : PropertyMap)
    (h : mapGet (buildClassRulesMap text) c = some props) : props ≠ [] := by
  rcases mapGet_mem h with ⟨p, hp, hv⟩
  simp only [buildClassRulesMap] at hp
  have := classRegexScan_vals_ne_nil _ _ [] (by intro e he; simp at he) p hp
  exact hv ▸ this

/-- Witness for C5: the amended theorem at a concrete stylesheet text whose
only class has one custom property. -/
theorem C5_regex_index_no_empty_class_witness :
    mapGet (buildClassRulesMap ".c1\x7b--a: 1;\x7d") "c1"
      = some [("--a", "1")] ∧
    ([("--a", "1")] : PropertyMap) ≠ [] :=
  ⟨rfl, C5_regex_index_no_empty_class ".c1\x7b--a: 1;\x7d" "c1" _ rfl⟩

/-- C6 (counterexample): the regex-built index of the worker/fetch variants
does NOT keep the first matching rule: for a stylesheet text with two rules
for `.c1` (`--a: 1` first, `--a: 2` second) the index holds the LAST rule's
properties, contradicting the claim that scanning stops at the first
match. -/
theorem C6_regex_index_keeps_last_match :
    mapGet (buildClassRulesMap ".c1\x7b--a: 1;\x7d.c1\x7b--a: 2;\x7d") "c1"
      = some [("--a", "2")] ∧
    mapGet (buildClassRulesMap ".c1\x7b--a: 1;\x7d.c1\x7b--a: 2;\x7d") "c1"
      ≠ some [("--a", "1")] :=
  ⟨rfl, by decide⟩

/-- C6 (amended): the synchronous variant does keep the first matching rule:
if no rule before the distinguished `.c` rule matches class `c`, an element
with first class `c` makes the index record exactly that first rule's custom
properties, whatever rules follow (the scan `break`s at the first match). -/
theorem C6_sync_first_match (pre post : List CssRule) (c : String)
    (decls : List CssDecl) (href : Option String) (i : Nat) (m : Option String)
    (h : ∀ r ∈ pre, r.matchesClass c = false) :
    (extractCssCustomPropertiesSync
        [⟨href, some (pre ++ CssRule.styleRule ("." ++ c) decls :: post)⟩]
        [⟨i, [c], m⟩]).classRulesMap = [(c, extractCustomProps decls)] := by
  have hf := findClassRule_append_first pre post c decls h
  simp [extractCssCustomPropertiesSync, syncStep, mapGet, hf, mapSet]

/-- Witness for C6: the amended theorem at a concrete rule list in which the
first `.c1` rule declares `--a: 1` and a later `.c1` rule declares
`--a: 2`; the index keeps `--a: 1`. -/
theorem C6_sync_first_match_witness :
    (∀ r ∈ [CssRule.styleRule ".x" []], r.matchesClass "c1" = false) ∧
    (extractCssCustomPropertiesSync
        [⟨some "style.css", some ([CssRule.styleRule ".x" []] ++
            CssRule.styleRule ("." ++ "c1") [⟨"--a", " 1"⟩] ::
            [CssRule.styleRule ("." ++ "c1") [⟨"--a", " 2"⟩]])⟩]
        [⟨0, ["c1"], some "dark"⟩]).classRulesMap
      = [("c1", extractCustomProps [⟨"--a", " 1"⟩])] :=
  ⟨by decide, C6_sync_first_match _ _ _ _ _ _ _ (by decide)⟩

/-- C7 (counterexample): when the publish date is unavailable the derived
version string is empty (`toISOString` of a real date is never empty), the
store step is skipped and the load step never matches, so `store` followed
by `load` under the empty version returns nothing rather than the stored
data — the round-trip claim fails for the empty version string. -/
theorem C7_empty_version_roundtrip_fails :
    cacheStore none [("dark", [("--bg", "#000")])] none = none ∧
    cacheLookup none (cacheStore none [("dark", [("--bg", "#000")])] none)
      ≠ some [("dark", [("--bg", "#000")])] :=
  ⟨rfl, by decide⟩

/-- C7 (amended): for every version derived from an AVAILABLE publish date,
`store(v, d)` followed by `load(v)` returns exactly `d` (deep-equal at the
value level), and `load` under any other current version — a different
available version or an unavailable one — returns nothing. -/
theorem C7_roundtrip_available_version (v : String) (d : VariableModes)
    (slot : Option CacheEntry) (v2 : String) (h : v2 ≠ v) :
    cacheLookup (some v) (cacheStore (some v) d slot) = some d ∧
    cacheLookup (some v2) (cacheStore (some v) d slot) = none ∧
    cacheLookup none (cacheStore (some v) d slot) = none := by
  refine ⟨?_, ?_, rfl⟩
  · simp [cacheLookup, cacheStore, publishDateString]
  · simp [cacheLookup, cacheStore, publishDateString, Ne.symm h]

/-- Witness for C7: the amended theorem at two concrete ISO version strings
and concrete data. -/
theorem C7_roundtrip_available_version_witness :
    ("2024-02-01T00:00:00.000Z" : String) ≠ "2024-01-01T00:00:00.000Z" ∧
    (cacheLookup (some "2024-01-01T00:00:00.000Z")
        (cacheStore (some "2024-01-01T00:00:00.000Z")
          [("dark", [("--bg", "#000")])] none)
      = some [("dark", [("--bg", "#000")])] ∧
     cacheLookup (some "2024-02-01T00:00:00.000Z")
        (cacheStore (some "2024-01-01T00:00:00.000Z")
          [("dark", [("--bg", "#000")])] none) = none ∧
     cacheLookup none
        (cacheStore (some "2024-01-01T00:00:00.000Z")
          [("dark", [("--bg", "#000")])] none) = none) :=
  ⟨by decide, C7_roundtrip_available_version "2024-01-01T00:00:00.000Z"
      [("dark", [("--bg", "#000")])] none "2024-02-01T00:00:00.000Z" (by decide)⟩

/-- C8: when the publish date resolves to none (version string empty), the
pipeline never adopts a stored cache entry — whatever the slot holds,
including an entry whose stored version is itself the empty string — and the
slot is left untouched (the empty version is never used as a store key
either): the result is always the freshly computed mode map. -/
theorem C8_unavailable_version_is_no_cache_key (slot : Option CacheEntry)
    (sheets : List StyleSheet) (els : List Element) :
    cacheLookup none slot = none ∧
    extractWebflowVariableModesSync none slot sheets els =
      (buildVariableModes els (extractCssCustomPropertiesSync sheets els).result,
        slot) := by
  have h1 : cacheLookup none slot = none := by cases slot <;> rfl
  refine ⟨h1, ?_⟩
  unfold extractWebflowVariableModesSync
  rw [h1]
  rfl

/-- C9: the concrete scenario — one element with mode `dark` and first class
`c1`, first stylesheet rule `.c1 { --bg: #000; color: red; }` (CSSOM hands
back the custom property's raw value ` #000` with its leading space) — the
published `VariableModes` is exactly `{ dark: { "--bg": "#000" } }`: the
non-custom `color` declaration is excluded and the value is trimmed. -/
theorem C9_dark_mode_scenario :
    (initWfVarModesSync s0 none none
        [⟨some "styles.css", some [CssRule.styleRule ".c1"
            [⟨"--bg", " #000"⟩, ⟨"color", "red"⟩]]⟩]
        [⟨0, ["c1"], some "dark"⟩]).1.gate.data
      = some [("dark", [("--bg", "#000")])] :=
  rfl

/-- C10: with no stylesheet at all (and, for the async variant, also with a
first stylesheet lacking an `href`), extraction returns the empty
element-to-properties map, and consequently the published `VariableModes`
is empty — every mode-tagged element is omitted entirely (its mode name is
not a key) rather than mapped to an empty property map. -/
theorem C10_no_stylesheet_all_modes_omitted (els : List Element)
    (text : String) (cssr : Option (List CssRule)) :
    (extractCssCustomPropertiesSync [] els).result = [] ∧
    extractCssCustomPropertiesAsync [] text els = [] ∧
    extractCssCustomPropertiesAsync [⟨none, cssr⟩] text els = [] ∧
    (extractWebflowVariableModesSync none none [] els).1 = [] := by
  refine ⟨rfl, rfl, rfl, ?_⟩
  exact buildVariableModes_empty_result els

end VarModeCollector
